import Mathlib

/-!
Verification of the Badminton Tournament Checker (src/app.py) against its
natural-language specification.

The development shallowly embeds the two core engines of the program:

* the identity resolver (the per-entrant loop at app.py lines 87-140), and
* the rule validator (the per-row loop at app.py lines 149-188) together
  with the derived no-match views (lines 201-212).

Python strings become `String`, pandas NaN-able cells become `Option String`
(`str()` of NaN is the literal string "nan", modeled by `idStr`), and any
statement that can raise at run time (tuple-unpacking `process.extractOne`'s
`None`, `tokens[-1]` on an empty token list) is modeled by `Option`, with
`none` standing for the raised exception that aborts the whole run through
the surrounding `try`/`except`.

The third-party similarity scorer `rapidfuzz.fuzz.token_sort_ratio` is kept
abstract: every definition that needs it takes a `scorer : String → String →
Nat` parameter.  `rapidfuzz.process.extractOne` is embedded as `extractOne`,
following its documented behaviour: it returns `None` on an empty candidate
list, and on ties for the best score it returns the first candidate in
iteration order (a new candidate replaces the running best only on a strictly
larger score).
-/

/-- Python `str.split()` helper: walk the characters, accumulating the current
(reversed) word and emitting it at whitespace boundaries.  Runs of whitespace
produce no empty tokens, exactly like Python's argument-less `split`. -/
def splitWsAux : List Char → List Char → List (List Char)
  | [], acc => if acc.isEmpty then [] else [acc.reverse]
  | c :: cs, acc =>
    if c.isWhitespace then
      if acc.isEmpty then splitWsAux cs [] else acc.reverse :: splitWsAux cs []
    else
      splitWsAux cs (c :: acc)

/-- Python `event.split()` (no separator argument): whitespace-separated
tokens, with no empty tokens. -/
def pySplit (s : String) : List String :=
  (splitWsAux s.data []).map (fun cs => String.mk cs)

/-- Python `s.startswith(p)` for a single prefix: the first `len(p)`
characters of `s` are exactly `p`. -/
def pyStartsWith (s p : String) : Bool :=
  decide (s.data.take p.data.length = p.data)

/-- Python `s.title()`: an alphabetic character is uppercased when it follows
a non-alphabetic character (or starts the string) and lowercased otherwise. -/
def pyTitleGo : List Char → Bool → List Char
  | [], _ => []
  | c :: cs, prevAlpha =>
    (if c.isAlpha then (if prevAlpha then c.toLower else c.toUpper) else c)
      :: pyTitleGo cs c.isAlpha

/-- Python `s.title()`. -/
def pyTitle (s : String) : String := String.mk (pyTitleGo s.data false)

/-- Python `s.strip()`: drop whitespace from both ends. -/
def pyStrip (s : String) : String :=
  String.mk (((s.data.dropWhile Char.isWhitespace).reverse.dropWhile
    Char.isWhitespace).reverse)

/-- Python `s.lower()`. -/
def pyLower (s : String) : String := String.mk (s.data.map Char.toLower)

/-- `p` is a prefix of `l` (character lists). -/
def listHasPre : List Char → List Char → Bool
  | [], _ => true
  | _ :: _, [] => false
  | p :: ps, c :: cs => p == c && listHasPre ps cs

/-- `p` occurs as a contiguous sublist of `l` (character lists). -/
def listHasSub (p : List Char) : List Char → Bool
  | [] => p.isEmpty
  | c :: cs => listHasPre p (c :: cs) || listHasSub p cs

/-- Python substring test `pat in s`. -/
def strContains (s pat : String) : Bool :=
  listHasSub pat.data s.data

/-- Python `s.split(sep)` for a one-character separator: split at every
occurrence, keeping empty pieces (`"".split(",") == [""]`). -/
def splitCharAux (sep : Char) : List Char → List Char → List (List Char)
  | [], acc => [acc.reverse]
  | c :: cs, acc =>
    if c == sep then acc.reverse :: splitCharAux sep cs []
    else splitCharAux sep cs (c :: acc)

/-- Python `s.split(",")`. -/
def pySplitComma (s : String) : List String :=
  (splitCharAux ',' s.data []).map (fun cs => String.mk cs)

/-- The `grade_map` dictionary of `parse_event_grade` (app.py line 43):
`{"A Reserve": "A RES", "A Open": "A"}`, with `.get(grade, grade)` falling
back to the key itself. -/
def gradeMap (g : String) : String :=
  if g = "A Reserve" then "A RES" else if g = "A Open" then "A" else g

/-- `parse_event_grade` (app.py lines 38-44).  `tokens[-1]` raises
`IndexError` when the label has no whitespace tokens; that raise is modeled
by `none`.  `" ".join(tokens[-2:])` is the last two tokens joined by a
space, and the two-token phrases "A Reserve" / "A Open" take precedence over
the single-token default. -/
def parse_event_grade (event : String) : Option String :=
  match (pySplit event).getLast? with
  | none => none
  | some last =>
    let tokens := pySplit event
    let joined := String.intercalate " " (tokens.drop (tokens.length - 2))
    some (gradeMap
      (if 2 ≤ tokens.length ∧ (joined = "A Reserve" ∨ joined = "A Open")
       then joined else last))

/-- One row of the grading roster (`grading_df`), after
`build_full_name` added the `full_name` column: the case-folded
"firstname surname" key, the `Member ID` cell (`none` for NaN, otherwise its
string form), and the three per-discipline grade cells. -/
structure GradingRow where
  fullName : String
  memberId : Option String
  singles : String
  doubles : String
  mixed : String
deriving DecidableEq, Repr

/-- One row of the entrant table (`entrant_df`), after `build_full_name`
added the `full_name` column.  `name` is the `Name` (surname) column and
`firstname` the `Firstname` column, used to rebuild the short name in the
fuzzy-match fallback.  `memberId` is the `Member ID` cell (`none` for an
absent or NaN cell, otherwise its string form). -/
structure EntrantRow where
  fullName : String
  name : String
  firstname : String
  memberId : Option String
  events : String
  email : String
deriving DecidableEq, Repr

/-- `pandas` `astype(str)` on a NaN-able cell: `str(NaN)` is `"nan"`. -/
def idStr : Option String → String
  | none => "nan"
  | some s => s

/-- `entrant_id = str(entrant_id_raw).strip() if pd.notna(entrant_id_raw)
else ""` (app.py line 92). -/
def entrantIdStr (e : EntrantRow) : String :=
  (e.memberId.map pyStrip).getD ""

/-- `grading_df['Member ID'].dropna().astype(str).values` (app.py line 99):
the present (non-NaN) roster identifiers, as strings. -/
def presentIds (grading : List GradingRow) : List String :=
  grading.filterMap (fun r => r.memberId)

/-- `rapidfuzz.process.extractOne(query, choices, scorer=...)`, embedded per
its documentation: `None` on an empty candidate list; otherwise the pair of
the best-scoring candidate and its score, where a later candidate replaces
the running best only on a strictly larger score, so ties for the best score
go to the first candidate in iteration order. -/
def extractGo (scorer : String → String → Nat) (query : String) :
    String × Nat → List String → String × Nat
  | best, [] => best
  | best, x :: cs =>
    extractGo scorer query
      (if best.2 < scorer query x then (x, scorer query x) else best) cs

/-- See the module docstring: `process.extractOne` with no score cutoff. -/
def extractOne (scorer : String → String → Nat) (query : String) :
    List String → Option (String × Nat)
  | [] => none
  | c :: cs => some (extractGo scorer query (c, scorer query c) cs)

/-- The identity resolver: the body of the per-entrant loop at app.py lines
87-116, returning the matched roster row (if any) and the `match_status`
string.  The outer `none` models the uncaught `TypeError` raised when
`process.extractOne` returns `None` (empty roster) and the code unpacks it
into `best_match, temp_confidence, _`.  `grading.find?` models the
`.iloc[0]` row selections (first row satisfying the column condition; for
the Member-ID selection the column is `astype(str)`-converted without
`dropna`, hence the `idStr` comparison). -/
def resolveEntrant (scorer : String → String → Nat) (grading : List GradingRow)
    (entrant : EntrantRow) : Option (Option GradingRow × String) :=
  if entrantIdStr entrant ≠ "" ∧ entrantIdStr entrant ∈ presentIds grading then
    some (grading.find? (fun r => decide (idStr r.memberId = entrantIdStr entrant)),
      "Member ID Match")
  else
    match extractOne scorer entrant.fullName (grading.map (fun r => r.fullName)) with
    | none => none
    | some bc =>
      if 85 ≤ bc.2 then
        match grading.find? (fun r => decide (r.fullName = bc.1)) with
        | some r => some (some r, "Name Search")
        | none => none
      else
        match extractOne scorer
            (pyLower (pyStrip entrant.firstname ++ " " ++ pyStrip entrant.name))
            (grading.map (fun r => r.fullName)) with
        | none => none
        | some bc2 =>
          if 85 ≤ bc2.2 then
            match grading.find? (fun r => decide (r.fullName = bc2.1)) with
            | some r => some (some r, "Name Search")
            | none => none
          else some (none, "No Match")

/-- One row of `results_df` (app.py lines 119-140), with the
`Rule Violations` column that the second loop adds later. -/
structure ResultRow where
  entrantName : String
  email : String
  memberId : String
  events : String
  singles : String
  doubles : String
  mixed : String
  matchStatus : String
  violations : String
deriving DecidableEq, Repr

/-- Result-row construction (app.py lines 119-140): grades come from the
matched roster row, or "N/A" when unmatched; a blank entrant identifier is
displayed as "None".  The `Rule Violations` column does not exist yet and is
initialised empty. -/
def processEntrant (scorer : String → String → Nat) (grading : List GradingRow)
    (entrant : EntrantRow) : Option ResultRow :=
  match resolveEntrant scorer grading entrant with
  | none => none
  | some mr =>
    some {
      entrantName := pyTitle entrant.fullName
      email := entrant.email
      memberId := if entrantIdStr entrant ≠ "" then entrantIdStr entrant else "None"
      events := entrant.events
      singles := match mr.1 with | some r => r.singles | none => "N/A"
      doubles := match mr.1 with | some r => r.doubles | none => "N/A"
      mixed := match mr.1 with | some r => r.mixed | none => "N/A"
      matchStatus := mr.2
      violations := "" }

/-- `grade_order = ["D", "C", "B", "A RES", "A"]` (app.py line 85). -/
def gradeOrder : List String := ["D", "C", "B", "A RES", "A"]

/-- The age-category keyword set `["U11", "U13", "U15", "45+"]`
(app.py lines 153 and 202). -/
def ageKeywords : List String := ["U11", "U13", "U15", "45+"]

/-- `grade_order.index(g)` (only ever called on members of `grade_order`). -/
def gradeRank (g : String) : Nat := gradeOrder.indexOf g

/-- `[e.strip() for e in str(events).split(",")]` (app.py line 151). -/
def eventList (events : String) : List String :=
  (pySplitComma events).map pyStrip

/-- `total_events = len([e for e in event_list if e])` (app.py line 152). -/
def totalEvents (events : String) : Nat :=
  ((eventList events).filter (fun e => decide (e ≠ ""))).length

/-- `filtered_events` (app.py line 153): events kept for the grade-based
rules, i.e. those containing none of the age keywords as a (case-sensitive)
substring. -/
def filteredEvents (events : String) : List String :=
  (eventList events).filter (fun e => !(ageKeywords.any (fun x => strContains e x)))

/-- `normalized_grades` (app.py line 155): the parsed grades of the filtered
events that belong to `grade_order`.  (Only consulted on rows where every
parse succeeded, where `filterMap` agrees with the Python list
comprehension.) -/
def normalizedGrades (events : String) : List String :=
  ((filteredEvents events).filterMap parse_event_grade).filter
    (fun g => decide (g ∈ gradeOrder))

/-- Python `min(l, key=f)`: first element with the minimal key (a later
element replaces the running best only on a strictly smaller key). -/
def pyMinBy (f : String → Nat) : List String → Option String
  | [] => none
  | c :: cs => some (cs.foldl (fun best x => if f x < f best then x else best) c)

/-- Python `max(l, key=f)`: first element with the maximal key. -/
def pyMaxBy (f : String → Nat) : List String → Option String
  | [] => none
  | c :: cs => some (cs.foldl (fun best x => if f best < f x then x else best) c)

/-- The max-events rule R1 (app.py lines 160-161). -/
def r1Part (events : String) : List String :=
  if 3 < totalEvents events then ["More than 3 events"] else []

/-- The grade-span rule R2 (app.py lines 164-169): when `normalized_grades`
is non-empty, take the min/max by `grade_order.index` and fire on a span of
at least 2. -/
def r2Part (events : String) : List String :=
  if normalizedGrades events = [] then []
  else
    match pyMinBy gradeRank (normalizedGrades events),
        pyMaxBy gradeRank (normalizedGrades events) with
    | some mn, some mx =>
      if 2 ≤ gradeRank mx - gradeRank mn then ["Grade span exceeds 2 levels"] else []
    | _, _ => []

/-- The per-event body of the grade-eligibility rule R3 (app.py lines
173-184): re-parse the event grade, and when it is a recognised grade walk
the `if`/`elif` prefix chain.  (Inside a successful row the re-parse always
succeeds; the `none` arm is unreachable there.) -/
def r3ForEvent (e s d m : String) : List String :=
  match parse_event_grade e with
  | none => []
  | some eg =>
    if decide (eg ∈ gradeOrder) then
      if (pyStartsWith e "MS" || pyStartsWith e "WS") && decide (s ∈ gradeOrder) then
        if gradeRank eg < gradeRank s then ["Singles graded too high: " ++ s] else []
      else if (pyStartsWith e "MD" || pyStartsWith e "WD") && decide (d ∈ gradeOrder) then
        if gradeRank eg < gradeRank d then ["Doubles graded too high: " ++ d] else []
      else if pyStartsWith e "XD" && decide (m ∈ gradeOrder) then
        if gradeRank eg < gradeRank m then ["Mixed graded too high: " ++ m] else []
      else []
    else []

/-- The grade-eligibility rule R3 (app.py lines 172-184): guarded by "some
discipline grade of the row is a recognised grade", then one pass over
`filtered_events`. -/
def r3Part (events s d m : String) : List String :=
  if decide (s ∈ gradeOrder) || decide (d ∈ gradeOrder) || decide (m ∈ gradeOrder) then
    ((filteredEvents events).map (fun e => r3ForEvent e s d m)).flatten
  else []

/-- `entrant_violations` for one row of `results_df` (app.py lines 149-184),
as a list in emission order (R1, then R2, then the R3 messages in event
order).  The `event_grades` list comprehension at line 154 calls
`parse_event_grade` on every filtered event and raises `IndexError` as soon
as one of them has no whitespace tokens; that raise is modeled by `none`. -/
def entrantViolations (events s d m : String) : Option (List String) :=
  if (filteredEvents events).all (fun e => (parse_event_grade e).isSome) then
    some (r1Part events ++ r2Part events ++ r3Part events s d m)
  else none

/-- Filling the `Rule Violations` cell of one row (app.py line 186):
`", ".join(entrant_violations) if entrant_violations else "OK"`. -/
def annotateRow (row : ResultRow) : Option ResultRow :=
  match entrantViolations row.events row.singles row.doubles row.mixed with
  | none => none
  | some vs =>
    some { row with violations := if vs = [] then "OK" else String.intercalate ", " vs }

/-- The whole core run (both loops, app.py lines 87-188): resolve and build
every result row, then annotate every row with its violations.  `none`
models any uncaught exception, which aborts the entire run through the
surrounding `try`/`except`. -/
def runChecker (scorer : String → String → Nat) (grading : List GradingRow)
    (entrants : List EntrantRow) : Option (List ResultRow) :=
  match entrants.mapM (processEntrant scorer grading) with
  | none => none
  | some rows => rows.mapM annotateRow

/-- The derived-view age test (app.py lines 203 and 210):
`Events.str.contains("U11|U13|U15|45+", case=False, na=False)`.  The pattern
is a regular expression: an alternation of the literals "U11", "U13", "U15"
and of "45+", in which `+` is the one-or-more quantifier, so the last
alternative matches "4" followed by one or more "5"s — and a string contains
such a match exactly when it contains the substring "45".  `case=False`
makes the search case-insensitive, modeled by lowercasing the subject (the
pattern's only cased letters are the `U`s). -/
def viewAgeTest (events : String) : Bool :=
  strContains (pyLower events) "u11" || strContains (pyLower events) "u13" ||
    strContains (pyLower events) "u15" || strContains (pyLower events) "45"

/-- The "No Match Flags (Filtered)" view (app.py lines 201-203): unmatched
rows whose Events do not pass the age test. -/
def noMatchFiltered (rows : List ResultRow) : List ResultRow :=
  rows.filter (fun r => decide (r.matchStatus = "No Match") && !(viewAgeTest r.events))

/-- The "Juniors and +45 Entrants Not Found" view (app.py lines 209-210):
unmatched rows whose Events pass the age test. -/
def ageNoMatch (rows : List ResultRow) : List ResultRow :=
  rows.filter (fun r => decide (r.matchStatus = "No Match") && viewAgeTest r.events)

/-- The per-event age-marker predicate written from the claim text for the
derived views: some comma-separated event label contains one of the four age
keywords as a literal substring.  Used only to state what the spec asserts,
for comparison with the code's `viewAgeTest`. -/
def eventHasAgeKeyword (events : String) : Bool :=
  (eventList events).any (fun e => ageKeywords.any (fun k => strContains e k))

/-- A simple concrete similarity scorer used to instantiate the abstract
`scorer` parameter in witnesses: 100 on equal strings, 0 otherwise. -/
def demoScorer (a b : String) : Nat := if a = b then 100 else 0

/-! ### Tokens produced by `pySplit` contain no whitespace -/

lemma splitWsAux_no_ws : ∀ (cs acc : List Char),
    (∀ a ∈ acc, a.isWhitespace = false) →
    ∀ t ∈ splitWsAux cs acc, ∀ ch ∈ t, ch.isWhitespace = false := by
  intro cs
  induction cs with
  | nil =>
    intro acc hacc t ht ch hch
    simp only [splitWsAux] at ht
    split at ht
    · simp at ht
    · simp only [List.mem_singleton] at ht
      subst ht
      exact hacc ch (List.mem_reverse.mp hch)
  | cons c cs ih =>
    intro acc hacc t ht ch hch
    simp only [splitWsAux] at ht
    by_cases hw : c.isWhitespace = true
    · rw [if_pos hw] at ht
      split at ht
      · exact ih [] (by simp) t ht ch hch
      · rcases List.mem_cons.mp ht with rfl | ht2
        · exact hacc ch (List.mem_reverse.mp hch)
        · exact ih [] (by simp) t ht2 ch hch
    · rw [if_neg hw] at ht
      refine ih (c :: acc) ?_ t ht ch hch
      intro a ha
      rcases List.mem_cons.mp ha with rfl | ha2
      · exact Bool.not_eq_true _ ▸ (Bool.eq_false_iff.mpr hw)
      · exact hacc a ha2

lemma pySplit_no_ws (s : String) : ∀ t ∈ pySplit s, ∀ ch ∈ t.data,
    ch.isWhitespace = false := by
  intro t ht ch hch
  simp only [pySplit, List.mem_map] at ht
  obtain ⟨cs, hcs, rfl⟩ := ht
  exact splitWsAux_no_ws s.data [] (by simp) cs hcs ch hch

lemma pySplit_tok_ne_phrase (s t : String) (ht : t ∈ pySplit s) :
    t ≠ "A Reserve" ∧ t ≠ "A Open" := by
  constructor <;> intro h <;> subst h
  · have h2 := pySplit_no_ws s _ ht ' ' (by decide)
    simp at h2
  · have h2 := pySplit_no_ws s _ ht ' ' (by decide)
    simp at h2

/-- C5: for every event label with at least one whitespace token (its last
token being `last`), `parse_event_grade` returns "A RES" when the last two
tokens joined with a space equal "A Reserve", returns "A" when they equal
"A Open", and otherwise returns the last token unchanged. -/
theorem c5_parse_grade_cases (e last : String)
    (h : (pySplit e).getLast? = some last) :
    parse_event_grade e = some (
      if 2 ≤ (pySplit e).length ∧
          String.intercalate " " ((pySplit e).drop ((pySplit e).length - 2)) = "A Reserve"
      then "A RES"
      else if 2 ≤ (pySplit e).length ∧
          String.intercalate " " ((pySplit e).drop ((pySplit e).length - 2)) = "A Open"
      then "A"
      else last) := by
  have hlast : last ∈ pySplit e := by
    have hne : pySplit e ≠ [] := by
      intro hnil
      rw [hnil] at h
      simp at h
    rw [List.getLast?_eq_getLast _ hne] at h
    have := List.getLast_mem hne
    rwa [Option.some_inj.mp h] at this
  obtain ⟨hne1, hne2⟩ := pySplit_tok_ne_phrase e last hlast
  simp only [parse_event_grade, h]
  by_cases h1 : 2 ≤ (pySplit e).length
  · by_cases h2 :
        String.intercalate " " ((pySplit e).drop ((pySplit e).length - 2)) = "A Reserve"
    · rw [if_pos ⟨h1, Or.inl h2⟩, if_pos ⟨h1, h2⟩, h2]
      rfl
    · by_cases h3 :
          String.intercalate " " ((pySplit e).drop ((pySplit e).length - 2)) = "A Open"
      · rw [if_pos ⟨h1, Or.inr h3⟩, if_neg (fun hc => h2 hc.2), if_pos ⟨h1, h3⟩, h3]
        rfl
      · rw [if_neg (fun hc => hc.2.elim h2 h3), if_neg (fun hc => h2 hc.2),
          if_neg (fun hc => h3 hc.2)]
        simp [gradeMap, hne1, hne2]
  · rw [if_neg (fun hc => h1 hc.1), if_neg (fun hc => h1 hc.1),
      if_neg (fun hc => h1 hc.1)]
    simp [gradeMap, hne1, hne2]

/-- Witness for C5 at the claim's own example: `parse_grade "MS B" = "B"`. -/
theorem c5_parse_grade_cases_witness :
    (pySplit "MS B").getLast? = some "B" ∧ parse_event_grade "MS B" = some "B" := by
  refine ⟨by decide, ?_⟩
  have h := c5_parse_grade_cases "MS B" "B" (by decide)
  rw [h]
  decide

/-! ### Behaviour of `extractOne`: the returned score is the maximum, and the
returned candidate is the first one attaining it -/

lemma extractGo_spec (scorer : String → String → Nat) (q : String) :
    ∀ (cs : List String) (b : String) (s : Nat),
      s ≤ (extractGo scorer q (b, s) cs).2 ∧
      (∀ c ∈ cs, scorer q c ≤ (extractGo scorer q (b, s) cs).2) ∧
      (extractGo scorer q (b, s) cs = (b, s) ∨
        (s < (extractGo scorer q (b, s) cs).2 ∧
          scorer q (extractGo scorer q (b, s) cs).1 = (extractGo scorer q (b, s) cs).2 ∧
          cs.find? (fun c => decide (scorer q c = (extractGo scorer q (b, s) cs).2)) =
            some (extractGo scorer q (b, s) cs).1)) := by
  intro cs
  induction cs with
  | nil =>
    intro b s
    exact ⟨Nat.le_refl s, by simp, Or.inl rfl⟩
  | cons x cs ih =>
    intro b s
    by_cases hx : s < scorer q x
    · have hstep : extractGo scorer q (b, s) (x :: cs) =
          extractGo scorer q (x, scorer q x) cs := by
        simp only [extractGo, if_pos hx]
      obtain ⟨ih1, ih2, ih3⟩ := ih x (scorer q x)
      rw [hstep]
      refine ⟨Nat.le_of_lt (Nat.lt_of_lt_of_le hx ih1), ?_, ?_⟩
      · intro c hc
        rcases List.mem_cons.mp hc with rfl | hc2
        · exact ih1
        · exact ih2 c hc2
      · right
        rcases ih3 with heq | ⟨hlt, hsc, hfind⟩
        · rw [heq]
          refine ⟨hx, rfl, ?_⟩
          simp [List.find?_cons]
        · refine ⟨Nat.lt_trans hx hlt, hsc, ?_⟩
          rw [List.find?_cons_of_neg, hfind]
          simp only [decide_eq_true_eq]
          exact Nat.ne_of_lt hlt
    · have hstep : extractGo scorer q (b, s) (x :: cs) =
          extractGo scorer q (b, s) cs := by
        simp only [extractGo, if_neg hx]
      have hxs : scorer q x ≤ s := Nat.le_of_not_lt hx
      obtain ⟨ih1, ih2, ih3⟩ := ih b s
      rw [hstep]
      refine ⟨ih1, ?_, ?_⟩
      · intro c hc
        rcases List.mem_cons.mp hc with rfl | hc2
        · exact Nat.le_trans hxs ih1
        · exact ih2 c hc2
      · rcases ih3 with heq | ⟨hlt, hsc, hfind⟩
        · exact Or.inl heq
        · refine Or.inr ⟨hlt, hsc, ?_⟩
          rw [List.find?_cons_of_neg, hfind]
          simp only [decide_eq_true_eq]
          exact Nat.ne_of_lt (Nat.lt_of_le_of_lt hxs hlt)

lemma extractOne_spec (scorer : String → String → Nat) (q c : String)
    (cs : List String) :
    ∃ b s, extractOne scorer q (c :: cs) = some (b, s) ∧ scorer q b = s ∧
      (∀ x ∈ c :: cs, scorer q x ≤ s) ∧
      (c :: cs).find? (fun x => decide (scorer q x = s)) = some b := by
  obtain ⟨h1, h2, h3⟩ := extractGo_spec scorer q cs c (scorer q c)
  refine ⟨(extractGo scorer q (c, scorer q c) cs).1,
    (extractGo scorer q (c, scorer q c) cs).2, by simp [extractOne], ?_, ?_, ?_⟩
  · rcases h3 with heq | ⟨_, hsc, _⟩
    · rw [heq]
    · exact hsc
  · intro x hx
    rcases List.mem_cons.mp hx with rfl | hx2
    · exact h1
    · exact h2 x hx2
  · rcases h3 with heq | ⟨hlt, _, hfind⟩
    · rw [heq]
      simp [List.find?_cons]
    · rw [List.find?_cons_of_neg, hfind]
      simp only [decide_eq_true_eq]
      exact Nat.ne_of_lt hlt

/-- Selecting the matched roster row by full-name equality with the best
fuzzy candidate (`grading_df[grading_df['full_name'] == best_match].iloc[0]`)
selects exactly the first roster row attaining the best score, because the
score of a row depends only on its `full_name` string. -/
lemma find?_fullName_eq (scorer : String → String → Nat) (q : String) (M : Nat) :
    ∀ (grading : List GradingRow) (b : String),
      (grading.map (fun r => r.fullName)).find?
          (fun c => decide (scorer q c = M)) = some b →
      grading.find? (fun r => decide (r.fullName = b)) =
        grading.find? (fun r => decide (scorer q r.fullName = M)) := by
  intro grading
  induction grading with
  | nil => intro b hb; simp at hb
  | cons g gs ih =>
    intro b hb
    simp only [List.map_cons] at hb
    by_cases hg : scorer q g.fullName = M
    · rw [List.find?_cons_of_pos _ (by simp [hg])] at hb
      have hbg : b = g.fullName := by
        have := Option.some_inj.mp hb
        exact this.symm
      rw [List.find?_cons_of_pos _ (by simp [hbg]),
        List.find?_cons_of_pos _ (by simp [hg])]
    · rw [List.find?_cons_of_neg _ (by simp [hg])] at hb
      have hbne : ¬(g.fullName = b) := by
        intro he
        have hpb := List.find?_some hb
        simp only [decide_eq_true_eq] at hpb
        rw [he] at hg
        exact hg hpb
      rw [List.find?_cons_of_neg _ (by simp [hbne]),
        List.find?_cons_of_neg _ (by simp [hg])]
      exact ih b hb

/-- When the Member-ID branch does not fire, the resolver's status is "Name
Search" or "No Match" (or the run raises): the fuzzy path never reports a
Member-ID match. -/
lemma resolveEntrant_fuzzy_status (scorer : String → String → Nat)
    (grading : List GradingRow) (entrant : EntrantRow)
    (h : ¬(entrantIdStr entrant ≠ "" ∧ entrantIdStr entrant ∈ presentIds grading)) :
    ∀ p, resolveEntrant scorer grading entrant = some p →
      p.2 = "Name Search" ∨ p.2 = "No Match" := by
  intro p hp
  simp only [resolveEntrant, if_neg h] at hp
  split at hp
  · exact absurd hp (by simp)
  · split at hp
    · split at hp
      · have := Option.some_inj.mp hp
        rw [← this]
        exact Or.inl rfl
      · exact absurd hp (by simp)
    · split at hp
      · exact absurd hp (by simp)
      · split at hp
        · split at hp
          · have := Option.some_inj.mp hp
            rw [← this]
            exact Or.inl rfl
          · exact absurd hp (by simp)
        · have := Option.some_inj.mp hp
          rw [← this]
          exact Or.inr rfl

/-- C1: the resolver returns a Member-ID match — with the first roster row
whose (string-converted) identifier equals the entrant's trimmed identifier,
and status "Member ID Match" — exactly when the entrant's trimmed identifier
is non-empty and occurs among the present (non-NaN) roster identifiers.
The similarity scorer is universally quantified and absent from the
right-hand side, so the identifier branch wins regardless of any name
similarity; blank or absent identifiers on either side never produce it. -/
theorem c1_identifier_match (scorer : String → String → Nat)
    (grading : List GradingRow) (entrant : EntrantRow) :
    resolveEntrant scorer grading entrant =
        some (grading.find? (fun r => decide (idStr r.memberId = entrantIdStr entrant)),
          "Member ID Match")
      ↔ entrantIdStr entrant ≠ "" ∧ entrantIdStr entrant ∈ presentIds grading := by
  constructor
  · intro h
    by_contra hn
    have := resolveEntrant_fuzzy_status scorer grading entrant hn _ h
    simp at this
  · intro h
    simp only [resolveEntrant, if_pos h]

/-- Witness for C1: a concrete entrant whose identifier " 123 " trims to
"123" and matches the second roster row, despite sharing no name
similarity with it under `demoScorer`. -/
theorem c1_identifier_match_witness :
    (entrantIdStr ⟨"alice smith", "Smith", "Alice", some " 123 ", "MS B", "a"⟩ ≠ "" ∧
      entrantIdStr ⟨"alice smith", "Smith", "Alice", some " 123 ", "MS B", "a"⟩ ∈
        presentIds [⟨"alice smith", some "999", "B", "B", "B"⟩,
          ⟨"bob jones", some "123", "A", "A", "A"⟩]) ∧
    resolveEntrant demoScorer
        [⟨"alice smith", some "999", "B", "B", "B"⟩,
          ⟨"bob jones", some "123", "A", "A", "A"⟩]
        ⟨"alice smith", "Smith", "Alice", some " 123 ", "MS B", "a"⟩ =
      some (some ⟨"bob jones", some "123", "A", "A", "A"⟩, "Member ID Match") := by
  refine ⟨by decide, ?_⟩
  have h := (c1_identifier_match demoScorer
    [⟨"alice smith", some "999", "B", "B", "B"⟩,
      ⟨"bob jones", some "123", "A", "A", "A"⟩]
    ⟨"alice smith", "Smith", "Alice", some " 123 ", "MS B", "a"⟩).mpr (by decide)
  rw [h]
  decide

/-- C2 is a code bug: on an empty roster the resolver does not return "No
Match" — `process.extractOne(name, [])` returns `None`, and unpacking it
raises `TypeError` (modeled by `none`), aborting the run, for every entrant
and every scorer. -/
theorem c2_empty_roster_raises (scorer : String → String → Nat)
    (entrant : EntrantRow) :
    resolveEntrant scorer [] entrant = none := by
  have h : ¬(entrantIdStr entrant ≠ "" ∧
      entrantIdStr entrant ∈ presentIds ([] : List GradingRow)) := by
    rintro ⟨-, hmem⟩
    simp [presentIds] at hmem
  simp only [resolveEntrant, if_neg h]
  rfl

/-- C4: whenever the Member-ID branch does not fire and the top similarity
score `M` of the entrant's full name over the roster clears the threshold
(in particular when two or more roster rows tie for `M`), the resolver
returns the first-encountered top-scoring roster row, in roster iteration
order, with status "Name Search" — deterministically, for every scorer. -/
theorem c4_tie_break (scorer : String → String → Nat) (grading : List GradingRow)
    (entrant : EntrantRow) (M : Nat)
    (hnoid : ¬(entrantIdStr entrant ≠ "" ∧ entrantIdStr entrant ∈ presentIds grading))
    (hub : ∀ r ∈ grading, scorer entrant.fullName r.fullName ≤ M)
    (h85 : 85 ≤ M)
    (htie : 2 ≤ (grading.filter
        (fun r => decide (scorer entrant.fullName r.fullName = M))).length) :
    resolveEntrant scorer grading entrant =
      some (grading.find? (fun r => decide (scorer entrant.fullName r.fullName = M)),
        "Name Search") := by
  have hex : ∃ r ∈ grading, scorer entrant.fullName r.fullName = M := by
    have hpos : 0 < (grading.filter
        (fun r => decide (scorer entrant.fullName r.fullName = M))).length := by
      omega
    obtain ⟨r0, hr0⟩ := List.exists_mem_of_length_pos hpos
    have := List.mem_filter.mp hr0
    exact ⟨r0, this.1, by simpa using this.2⟩
  obtain ⟨r0, hr0, hr0M⟩ := hex
  cases grading with
  | nil => exact absurd hr0 (List.not_mem_nil r0)
  | cons g gs =>
    obtain ⟨b, s, hEx, hsb, hub2, hfind⟩ :=
      extractOne_spec scorer entrant.fullName g.fullName (gs.map (fun r => r.fullName))
    have hchoices : (g :: gs).map (fun r => r.fullName) =
        g.fullName :: gs.map (fun r => r.fullName) := by simp
    have hsM : s = M := by
      apply Nat.le_antisymm
      · have hbmem : b ∈ g.fullName :: gs.map (fun r => r.fullName) :=
          List.mem_of_find?_eq_some hfind
        rw [← hchoices] at hbmem
        obtain ⟨rb, hrb, hrbb⟩ := List.mem_map.mp hbmem
        rw [← hsb, ← hrbb]
        exact hub rb hrb
      · have : scorer entrant.fullName r0.fullName ≤ s := by
          apply hub2
          rw [← hchoices]
          exact List.mem_map.mpr ⟨r0, hr0, rfl⟩
        omega
    subst hsM
    have hbridge := find?_fullName_eq scorer entrant.fullName s (g :: gs) b
      (by rw [hchoices]; exact hfind)
    have hsome : (g :: gs).find?
        (fun r => decide (scorer entrant.fullName r.fullName = s)) ≠ none := by
      intro hnone
      have := List.find?_eq_none.mp hnone r0 hr0
      simp [hr0M] at this
    obtain ⟨rm, hrm⟩ := Option.ne_none_iff_exists'.mp hsome
    simp only [resolveEntrant, if_neg hnoid, hchoices, hEx, if_pos h85]
    rw [hbridge, hrm]

/-- Witness for C4: two roster rows both named "ann lee" tie at score 100
for the entrant "ann lee"; the resolver picks the first row. -/
theorem c4_tie_break_witness :
    resolveEntrant demoScorer
        [⟨"ann lee", some "1", "A", "A", "A"⟩, ⟨"ann lee", some "2", "B", "B", "B"⟩]
        ⟨"ann lee", "Lee", "Ann", none, "MS B", "e"⟩ =
      some (some ⟨"ann lee", some "1", "A", "A", "A"⟩, "Name Search") := by
  have h := c4_tie_break demoScorer
    [⟨"ann lee", some "1", "A", "A", "A"⟩, ⟨"ann lee", some "2", "B", "B", "B"⟩]
    ⟨"ann lee", "Lee", "Ann", none, "MS B", "e"⟩ 100
    (by decide) (by decide) (by decide) (by decide)
  rw [h]
  decide

/-! ### Behaviour of the Python `min`/`max` with a key function -/

lemma minFold_spec (f : String → Nat) :
    ∀ (cs : List String) (c : String),
      (cs.foldl (fun best x => if f x < f best then x else best) c) ∈ c :: cs ∧
      f (cs.foldl (fun best x => if f x < f best then x else best) c) ≤ f c ∧
      ∀ x ∈ cs, f (cs.foldl (fun best x => if f x < f best then x else best) c) ≤ f x := by
  intro cs
  induction cs with
  | nil =>
    intro c
    exact ⟨List.mem_cons_self c [], Nat.le_refl _, by simp⟩
  | cons x cs ih =>
    intro c
    simp only [List.foldl_cons]
    by_cases hx : f x < f c
    · rw [if_pos hx]
      obtain ⟨ih1, ih2, ih3⟩ := ih x
      refine ⟨?_, Nat.le_trans ih2 (Nat.le_of_lt hx), ?_⟩
      · rcases List.mem_cons.mp ih1 with heq | hmem
        · rw [heq]
          exact List.mem_cons_of_mem _ (List.mem_cons_self x cs)
        · exact List.mem_cons_of_mem _ (List.mem_cons_of_mem _ hmem)
      · intro y hy
        rcases List.mem_cons.mp hy with rfl | hy2
        · exact ih2
        · exact ih3 y hy2
    · rw [if_neg hx]
      obtain ⟨ih1, ih2, ih3⟩ := ih c
      refine ⟨?_, ih2, ?_⟩
      · rcases List.mem_cons.mp ih1 with heq | hmem
        · rw [heq]
          exact List.mem_cons_self c _
        · exact List.mem_cons_of_mem _ (List.mem_cons_of_mem _ hmem)
      · intro y hy
        rcases List.mem_cons.mp hy with rfl | hy2
        · exact Nat.le_trans ih2 (Nat.le_of_not_lt hx)
        · exact ih3 y hy2

lemma maxFold_spec (f : String → Nat) :
    ∀ (cs : List String) (c : String),
      (cs.foldl (fun best x => if f best < f x then x else best) c) ∈ c :: cs ∧
      f c ≤ f (cs.foldl (fun best x => if f best < f x then x else best) c) ∧
      ∀ x ∈ cs, f x ≤ f (cs.foldl (fun best x => if f best < f x then x else best) c) := by
  intro cs
  induction cs with
  | nil =>
    intro c
    exact ⟨List.mem_cons_self c [], Nat.le_refl _, by simp⟩
  | cons x cs ih =>
    intro c
    simp only [List.foldl_cons]
    by_cases hx : f c < f x
    · rw [if_pos hx]
      obtain ⟨ih1, ih2, ih3⟩ := ih x
      refine ⟨?_, Nat.le_trans (Nat.le_of_lt hx) ih2, ?_⟩
      · rcases List.mem_cons.mp ih1 with heq | hmem
        · rw [heq]
          exact List.mem_cons_of_mem _ (List.mem_cons_self x cs)
        · exact List.mem_cons_of_mem _ (List.mem_cons_of_mem _ hmem)
      · intro y hy
        rcases List.mem_cons.mp hy with rfl | hy2
        · exact ih2
        · exact ih3 y hy2
    · rw [if_neg hx]
      obtain ⟨ih1, ih2, ih3⟩ := ih c
      refine ⟨?_, ih2, ?_⟩
      · rcases List.mem_cons.mp ih1 with heq | hmem
        · rw [heq]
          exact List.mem_cons_self c _
        · exact List.mem_cons_of_mem _ (List.mem_cons_of_mem _ hmem)
      · intro y hy
        rcases List.mem_cons.mp hy with rfl | hy2
        · exact Nat.le_trans (Nat.le_of_not_lt hx) ih2
        · exact ih3 y hy2

lemma pyMinBy_spec (f : String → Nat) (l : List String) (b : String)
    (h : pyMinBy f l = some b) : b ∈ l ∧ ∀ x ∈ l, f b ≤ f x := by
  cases l with
  | nil => simp [pyMinBy] at h
  | cons c cs =>
    simp only [pyMinBy, Option.some_inj] at h
    subst h
    obtain ⟨h1, h2, h3⟩ := minFold_spec f cs c
    refine ⟨h1, ?_⟩
    intro x hx
    rcases List.mem_cons.mp hx with rfl | hx2
    · exact h2
    · exact h3 x hx2

lemma pyMaxBy_spec (f : String → Nat) (l : List String) (b : String)
    (h : pyMaxBy f l = some b) : b ∈ l ∧ ∀ x ∈ l, f x ≤ f b := by
  cases l with
  | nil => simp [pyMaxBy] at h
  | cons c cs =>
    simp only [pyMaxBy, Option.some_inj] at h
    subst h
    obtain ⟨h1, h2, h3⟩ := maxFold_spec f cs c
    refine ⟨h1, ?_⟩
    intro x hx
    rcases List.mem_cons.mp hx with rfl | hx2
    · exact h2
    · exact h3 x hx2

/-! ### Shapes of the violation messages -/

lemma r3ForEvent_mem (e s d m v : String) (h : v ∈ r3ForEvent e s d m) :
    (s ∈ gradeOrder ∧ v = "Singles graded too high: " ++ s) ∨
    (d ∈ gradeOrder ∧ v = "Doubles graded too high: " ++ d) ∨
    (m ∈ gradeOrder ∧ v = "Mixed graded too high: " ++ m) := by
  simp only [r3ForEvent] at h
  split at h
  · simp at h
  · split at h
    · split at h
      · rename_i hguard
        split at h
        · left
          refine ⟨?_, by simpa using h⟩
          have := (Bool.and_eq_true _ _).mp hguard
          exact of_decide_eq_true this.2
        · simp at h
      · split at h
        · rename_i hguard2
          split at h
          · right; left
            refine ⟨?_, by simpa using h⟩
            have := (Bool.and_eq_true _ _).mp hguard2
            exact of_decide_eq_true this.2
          · simp at h
        · split at h
          · rename_i hguard3
            split at h
            · right; right
              refine ⟨?_, by simpa using h⟩
              have := (Bool.and_eq_true _ _).mp hguard3
              exact of_decide_eq_true this.2
            · simp at h
          · simp at h
    · simp at h

lemma r3ForEvent_ne_r1r2 (e s d m v : String) (h : v ∈ r3ForEvent e s d m) :
    v ≠ "More than 3 events" ∧ v ≠ "Grade span exceeds 2 levels" := by
  rcases r3ForEvent_mem e s d m v h with ⟨hg, rfl⟩ | ⟨hg, rfl⟩ | ⟨hg, rfl⟩ <;>
    fin_cases hg <;> exact ⟨by decide, by decide⟩

lemma entrantViolations_eq (events s d m : String) (vs : List String)
    (h : entrantViolations events s d m = some vs) :
    vs = r1Part events ++ r2Part events ++ r3Part events s d m := by
  simp only [entrantViolations] at h
  split at h
  · exact (Option.some_inj.mp h).symm
  · exact absurd h (by simp)

lemma r1Part_mem (events v : String) (h : v ∈ r1Part events) :
    v = "More than 3 events" ∧ 3 < totalEvents events := by
  simp only [r1Part] at h
  split at h
  · exact ⟨by simpa using h, by assumption⟩
  · simp at h

/-- C3 is a code bug: an entrant whose Events field is absent/empty does get
`total_events = 0`, but the run does not complete — the empty string splits
into the single label `""`, which survives the age filter, and
`parse_event_grade("")` evaluates `tokens[-1]` on an empty token list,
raising `IndexError` (modeled by `none`) and aborting the whole run, even
though the entrant was resolved successfully by Member ID. -/
theorem c3_missing_events_aborts_run :
    totalEvents "" = 0 ∧
    entrantViolations "" "B" "B" "B" = none ∧
    runChecker demoScorer [⟨"zed zed", some "77", "B", "B", "B"⟩]
      [⟨"ann bee", "Bee", "Ann", some "77", "", "e"⟩] = none := by
  decide

/-- C6: for every row the validator completes on, "More than 3 events" is
emitted exactly when the number of non-empty comma-separated event labels
(age-category events included) exceeds 3. -/
theorem c6_max_events (events s d m : String) (vs : List String)
    (h : entrantViolations events s d m = some vs) :
    "More than 3 events" ∈ vs ↔ 3 < totalEvents events := by
  have hvs := entrantViolations_eq events s d m vs h
  subst hvs
  constructor
  · intro hm
    rcases List.mem_append.mp hm with hm12 | hm3
    · rcases List.mem_append.mp hm12 with hm1 | hm2
      · exact (r1Part_mem events _ hm1).2
      · exfalso
        simp only [r2Part] at hm2
        split at hm2
        · simp at hm2
        · split at hm2
          · split at hm2
            · simp at hm2
            · simp at hm2
          · simp at hm2
    · exfalso
      simp only [r3Part] at hm3
      split at hm3
      · obtain ⟨l, hl, hmem⟩ := List.mem_flatten.mp hm3
        obtain ⟨e0, _, rfl⟩ := List.mem_map.mp hl
        exact (r3ForEvent_ne_r1r2 e0 s d m _ hmem).1 rfl
      · simp at hm3
  · intro ht
    refine List.mem_append.mpr (Or.inl (List.mem_append.mpr (Or.inl ?_)))
    simp [r1Part, if_pos ht]

/-- Witness for C6: four non-empty events fire R1; the boundary case of
exactly three does not. -/
theorem c6_max_events_witness :
    (entrantViolations "MS B, MD B, XD B, WS B" "N/A" "N/A" "N/A" =
        some ["More than 3 events"] ∧
      "More than 3 events" ∈ ["More than 3 events"]) ∧
    entrantViolations "MS B, MD B, XD B" "N/A" "N/A" "N/A" = some [] := by
  refine ⟨⟨by decide, ?_⟩, by decide⟩
  exact (c6_max_events "MS B, MD B, XD B, WS B" "N/A" "N/A" "N/A"
    ["More than 3 events"] (by decide)).mpr (by decide)

/-- C7: for every row the validator completes on whose filtered events yield
a non-empty list of recognised grades, "Grade span exceeds 2 levels" is
emitted exactly when the rank of the maximal grade minus the rank of the
minimal grade is at least 2 (the extremes being stated as attained members
bounding all the normalized grades). -/
theorem c7_grade_span (events s d m : String) (vs : List String)
    (h : entrantViolations events s d m = some vs)
    (hne : normalizedGrades events ≠ []) :
    "Grade span exceeds 2 levels" ∈ vs ↔
      ∃ gmin ∈ normalizedGrades events, ∃ gmax ∈ normalizedGrades events,
        (∀ g ∈ normalizedGrades events,
          gradeRank gmin ≤ gradeRank g ∧ gradeRank g ≤ gradeRank gmax) ∧
        2 ≤ gradeRank gmax - gradeRank gmin := by
  have hvs := entrantViolations_eq events s d m vs h
  subst hvs
  obtain ⟨c, cs, hl⟩ := List.exists_cons_of_ne_nil hne
  have hmn : pyMinBy gradeRank (normalizedGrades events) =
      some (cs.foldl (fun best x =>
        if gradeRank x < gradeRank best then x else best) c) := by
    rw [hl]; rfl
  have hmx : pyMaxBy gradeRank (normalizedGrades events) =
      some (cs.foldl (fun best x =>
        if gradeRank best < gradeRank x then x else best) c) := by
    rw [hl]; rfl
  obtain ⟨hmnMem, hmnLe⟩ := pyMinBy_spec gradeRank (normalizedGrades events) _ hmn
  obtain ⟨hmxMem, hmxGe⟩ := pyMaxBy_spec gradeRank (normalizedGrades events) _ hmx
  have hr2 : r2Part events =
      if 2 ≤ gradeRank (cs.foldl (fun best x =>
            if gradeRank best < gradeRank x then x else best) c) -
          gradeRank (cs.foldl (fun best x =>
            if gradeRank x < gradeRank best then x else best) c)
      then ["Grade span exceeds 2 levels"] else [] := by
    simp only [r2Part, if_neg hne, hmn, hmx]
  constructor
  · intro hm
    rcases List.mem_append.mp hm with hm12 | hm3
    · rcases List.mem_append.mp hm12 with hm1 | hm2
      · exact absurd (r1Part_mem events _ hm1).1 (by decide)
      · rw [hr2] at hm2
        split at hm2
        · rename_i hspan
          exact ⟨_, hmnMem, _, hmxMem,
            fun g hg => ⟨hmnLe g hg, hmxGe g hg⟩, hspan⟩
        · simp at hm2
    · exfalso
      simp only [r3Part] at hm3
      split at hm3
      · obtain ⟨l, hl2, hmem⟩ := List.mem_flatten.mp hm3
        obtain ⟨e0, _, rfl⟩ := List.mem_map.mp hl2
        exact (r3ForEvent_ne_r1r2 e0 s d m _ hmem).2 rfl
      · simp at hm3
  · rintro ⟨gmin, hgmin, gmax, hgmax, -, hspan⟩
    have hcond : 2 ≤ gradeRank (cs.foldl (fun best x =>
          if gradeRank best < gradeRank x then x else best) c) -
        gradeRank (cs.foldl (fun best x =>
          if gradeRank x < gradeRank best then x else best) c) := by
      have h1 := hmnLe gmin hgmin
      have h2 := hmxGe gmax hgmax
      omega
    refine List.mem_append.mpr (Or.inl (List.mem_append.mpr (Or.inr ?_)))
    rw [hr2, if_pos hcond]
    exact List.mem_singleton.mpr rfl

/-- Witness for C7: grades D and B (ranks 0 and 2) fire the span rule;
grades D and C (ranks 0 and 1) do not. -/
theorem c7_grade_span_witness :
    (entrantViolations "MS D, MD B" "N/A" "N/A" "N/A" =
        some ["Grade span exceeds 2 levels"] ∧
      normalizedGrades "MS D, MD B" ≠ [] ∧
      "Grade span exceeds 2 levels" ∈ ["Grade span exceeds 2 levels"]) ∧
    entrantViolations "MS D, MD C" "N/A" "N/A" "N/A" = some [] := by
  refine ⟨⟨by decide, by decide, ?_⟩, by decide⟩
  exact (c7_grade_span "MS D, MD B" "N/A" "N/A" "N/A"
    ["Grade span exceeds 2 levels"] (by decide) (by decide)).mpr
    ⟨"D", by decide, "B", by decide, by decide, by decide⟩

/-! ### Discipline prefixes are mutually exclusive -/

lemma pyStartsWith_take (e p : String) (h : pyStartsWith e p = true) :
    e.data.take p.data.length = p.data := by
  simpa [pyStartsWith] using h

lemma startsWith_two_ne (e p q : String) (hp : pyStartsWith e p = true)
    (hq : pyStartsWith e q = true) (hlen : p.data.length = q.data.length) :
    p.data = q.data := by
  have h1 := pyStartsWith_take e p hp
  have h2 := pyStartsWith_take e q hq
  rw [hlen] at h1
  exact h1.symm.trans h2

/-- C8: for every row the validator completes on and every eligible
(age-filtered) event whose parsed grade is a recognised grade, the per-event
grade-eligibility check emits a violation exactly when the event's prefix
classifies a discipline (MS/WS Singles, MD/WD Doubles, XD Mixed), the row
has a recognised resolved grade for that discipline, and the event grade's
rank is strictly below the resolved grade's rank; and everything it emits
appears in the row's violation list. -/
theorem c8_grade_eligibility (events s d m : String) (vs : List String)
    (h : entrantViolations events s d m = some vs)
    (e : String) (he : e ∈ filteredEvents events)
    (eg : String) (hp : parse_event_grade e = some eg) (hg : eg ∈ gradeOrder) :
    (r3ForEvent e s d m ≠ [] ↔
      ((pyStartsWith e "MS" = true ∨ pyStartsWith e "WS" = true) ∧
        s ∈ gradeOrder ∧ gradeRank eg < gradeRank s) ∨
      ((pyStartsWith e "MD" = true ∨ pyStartsWith e "WD" = true) ∧
        d ∈ gradeOrder ∧ gradeRank eg < gradeRank d) ∨
      (pyStartsWith e "XD" = true ∧ m ∈ gradeOrder ∧
        gradeRank eg < gradeRank m)) ∧
    (∀ v ∈ r3ForEvent e s d m, v ∈ vs) := by
  have hvs := entrantViolations_eq events s d m vs h
  subst hvs
  constructor
  · have hr3 : r3ForEvent e s d m =
        (if (pyStartsWith e "MS" || pyStartsWith e "WS") && decide (s ∈ gradeOrder) then
          if gradeRank eg < gradeRank s then ["Singles graded too high: " ++ s] else []
        else if (pyStartsWith e "MD" || pyStartsWith e "WD") && decide (d ∈ gradeOrder) then
          if gradeRank eg < gradeRank d then ["Doubles graded too high: " ++ d] else []
        else if pyStartsWith e "XD" && decide (m ∈ gradeOrder) then
          if gradeRank eg < gradeRank m then ["Mixed graded too high: " ++ m] else []
        else []) := by
      simp only [r3ForEvent, hp]
      rw [if_pos (decide_eq_true hg)]
    by_cases hG1 : ((pyStartsWith e "MS" || pyStartsWith e "WS") &&
        decide (s ∈ gradeOrder)) = true
    · rw [if_pos hG1] at hr3
      obtain ⟨hor1, hsd⟩ := (Bool.and_eq_true _ _).mp hG1
      have hs : s ∈ gradeOrder := of_decide_eq_true hsd
      have hP1 := (Bool.or_eq_true _ _).mp hor1
      by_cases hrank : gradeRank eg < gradeRank s
      · rw [if_pos hrank] at hr3
        rw [hr3]
        constructor
        · intro _
          exact Or.inl ⟨hP1, hs, hrank⟩
        · intro _
          simp
      · rw [if_neg hrank] at hr3
        rw [hr3]
        constructor
        · intro hne
          exact absurd rfl hne
        · rintro (⟨-, -, hr⟩ | ⟨hor2, -, -⟩ | ⟨hxd, -, -⟩)
          · exact absurd hr hrank
          · exfalso
            rcases hP1 with h1 | h1 <;> rcases hor2 with h2 | h2 <;>
              exact absurd (startsWith_two_ne e _ _ h1 h2 (by decide)) (by decide)
          · exfalso
            rcases hP1 with h1 | h1 <;>
              exact absurd (startsWith_two_ne e _ _ h1 hxd (by decide)) (by decide)
    · rw [if_neg hG1] at hr3
      by_cases hG2 : ((pyStartsWith e "MD" || pyStartsWith e "WD") &&
          decide (d ∈ gradeOrder)) = true
      · rw [if_pos hG2] at hr3
        obtain ⟨hor2, hdd⟩ := (Bool.and_eq_true _ _).mp hG2
        have hd : d ∈ gradeOrder := of_decide_eq_true hdd
        have hP2 := (Bool.or_eq_true _ _).mp hor2
        by_cases hrank : gradeRank eg < gradeRank d
        · rw [if_pos hrank] at hr3
          rw [hr3]
          constructor
          · intro _
            exact Or.inr (Or.inl ⟨hP2, hd, hrank⟩)
          · intro _
            simp
        · rw [if_neg hrank] at hr3
          rw [hr3]
          constructor
          · intro hne
            exact absurd rfl hne
          · rintro (⟨hor1, hs, -⟩ | ⟨-, -, hr⟩ | ⟨hxd, -, -⟩)
            · exact absurd ((Bool.and_eq_true _ _).mpr
                ⟨(Bool.or_eq_true _ _).mpr hor1, decide_eq_true hs⟩) hG1
            · exact absurd hr hrank
            · exfalso
              rcases hP2 with h1 | h1 <;>
                exact absurd (startsWith_two_ne e _ _ h1 hxd (by decide)) (by decide)
      · rw [if_neg hG2] at hr3
        by_cases hG3 : (pyStartsWith e "XD" && decide (m ∈ gradeOrder)) = true
        · rw [if_pos hG3] at hr3
          obtain ⟨hxd, hmd⟩ := (Bool.and_eq_true _ _).mp hG3
          have hm : m ∈ gradeOrder := of_decide_eq_true hmd
          by_cases hrank : gradeRank eg < gradeRank m
          · rw [if_pos hrank] at hr3
            rw [hr3]
            constructor
            · intro _
              exact Or.inr (Or.inr ⟨hxd, hm, hrank⟩)
            · intro _
              simp
          · rw [if_neg hrank] at hr3
            rw [hr3]
            constructor
            · intro hne
              exact absurd rfl hne
            · rintro (⟨hor1, hs, -⟩ | ⟨hor2, hd, -⟩ | ⟨-, -, hr⟩)
              · exact absurd ((Bool.and_eq_true _ _).mpr
                  ⟨(Bool.or_eq_true _ _).mpr hor1, decide_eq_true hs⟩) hG1
              · exact absurd ((Bool.and_eq_true _ _).mpr
                  ⟨(Bool.or_eq_true _ _).mpr hor2, decide_eq_true hd⟩) hG2
              · exact absurd hr hrank
        · rw [if_neg hG3] at hr3
          rw [hr3]
          constructor
          · intro hne
            exact absurd rfl hne
          · rintro (⟨hor1, hs, -⟩ | ⟨hor2, hd, -⟩ | ⟨hxd, hm, -⟩)
            · exact absurd ((Bool.and_eq_true _ _).mpr
                ⟨(Bool.or_eq_true _ _).mpr hor1, decide_eq_true hs⟩) hG1
            · exact absurd ((Bool.and_eq_true _ _).mpr
                ⟨(Bool.or_eq_true _ _).mpr hor2, decide_eq_true hd⟩) hG2
            · exact absurd ((Bool.and_eq_true _ _).mpr
                ⟨hxd, decide_eq_true hm⟩) hG3
  · intro v hv
    have hguard : (decide (s ∈ gradeOrder) || decide (d ∈ gradeOrder) ||
        decide (m ∈ gradeOrder)) = true := by
      rcases r3ForEvent_mem e s d m v hv with ⟨hg2, -⟩ | ⟨hg2, -⟩ | ⟨hg2, -⟩
      · simp [hg2]
      · simp [hg2]
      · simp [hg2]
    refine List.mem_append.mpr (Or.inr ?_)
    simp only [r3Part]
    rw [if_pos hguard]
    exact List.mem_flatten.mpr
      ⟨r3ForEvent e s d m, List.mem_map.mpr ⟨e, he, rfl⟩, hv⟩

/-- Witness for C8: row with Singles grade "B", event "MS D" (rank 0 below
rank 2): the Singles violation is emitted and lands in the row's list. -/
theorem c8_grade_eligibility_witness :
    "Singles graded too high: B" ∈ ["Singles graded too high: B"] :=
  (c8_grade_eligibility "MS D" "B" "N/A" "N/A" ["Singles graded too high: B"]
    (by decide) "MS D" (by decide) "D" (by decide) (by decide)).2
    "Singles graded too high: B" (by decide)

/-- Counterexample to C9 as stated: the unmatched entrant with events
"MS 45" has no event label containing any member of the age keyword set
("45+" does not occur literally), so the claim routes it to the filtered
no-match view — but the code's view filter treats "45+" as a regular
expression (`"4"` followed by one or more `"5"`), which matches "MS 45", so
the entrant appears only in the age-specific view and the filtered view is
empty. -/
theorem c9_view_split_counterexample :
    eventHasAgeKeyword "MS 45" = false ∧
    runChecker demoScorer [⟨"zz qq", some "1", "B", "B", "B"⟩]
        [⟨"ann bee", "Bee", "Ann", none, "MS 45", "e"⟩] =
      some [⟨"Ann Bee", "e", "None", "MS 45", "N/A", "N/A", "N/A", "No Match", "OK"⟩] ∧
    noMatchFiltered
        [⟨"Ann Bee", "e", "None", "MS 45", "N/A", "N/A", "N/A", "No Match", "OK"⟩] = [] ∧
    ageNoMatch
        [⟨"Ann Bee", "e", "None", "MS 45", "N/A", "N/A", "N/A", "No Match", "OK"⟩] =
      [⟨"Ann Bee", "e", "None", "MS 45", "N/A", "N/A", "N/A", "No Match", "OK"⟩] := by
  decide

/-- C9 as amended: for every result row with match status "No Match", the
two derived views split on the code's actual age test (`viewAgeTest`: the
case-insensitive regex `U11|U13|U15|45+`, where "45+" matches any occurrence
of "45"): when the test holds the row appears in the age-specific view and
never in the filtered view, otherwise in the filtered view and never in the
age-specific one — the two views partition the unmatched rows. -/
theorem c9_view_split_amended (rows : List ResultRow) (r : ResultRow)
    (hr : r ∈ rows) (hnm : r.matchStatus = "No Match") :
    (viewAgeTest r.events = true →
      r ∈ ageNoMatch rows ∧ r ∉ noMatchFiltered rows) ∧
    (viewAgeTest r.events = false →
      r ∈ noMatchFiltered rows ∧ r ∉ ageNoMatch rows) := by
  constructor
  · intro hage
    constructor
    · exact List.mem_filter.mpr ⟨hr, by simp [ageNoMatch, hnm, hage]⟩
    · intro hmem
      have h2 := (List.mem_filter.mp hmem).2
      simp [noMatchFiltered, hnm, hage] at h2
  · intro hage
    constructor
    · exact List.mem_filter.mpr ⟨hr, by simp [noMatchFiltered, hnm, hage]⟩
    · intro hmem
      have h2 := (List.mem_filter.mp hmem).2
      simp [ageNoMatch, hnm, hage] at h2

/-- Witness for the amended C9: an unmatched row with events "MS B" fails
the age test and lands in the filtered view only. -/
theorem c9_view_split_amended_witness :
    (⟨"Ann Bee", "e", "None", "MS B", "N/A", "N/A", "N/A", "No Match", "OK"⟩ : ResultRow) ∈
        noMatchFiltered
          [⟨"Ann Bee", "e", "None", "MS B", "N/A", "N/A", "N/A", "No Match", "OK"⟩] ∧
      (⟨"Ann Bee", "e", "None", "MS B", "N/A", "N/A", "N/A", "No Match", "OK"⟩ : ResultRow) ∉
        ageNoMatch
          [⟨"Ann Bee", "e", "None", "MS B", "N/A", "N/A", "N/A", "No Match", "OK"⟩] :=
  (c9_view_split_amended
    [⟨"Ann Bee", "e", "None", "MS B", "N/A", "N/A", "N/A", "No Match", "OK"⟩]
    ⟨"Ann Bee", "e", "None", "MS B", "N/A", "N/A", "N/A", "No Match", "OK"⟩
    (by decide) (by decide)).2 (by decide)

/-- C10: the age test is applied inconsistently between the two stages.  At
the rule stage the case-sensitive substring test lets "MS B u11" through to
the grade-based rules (while "MS B U11" is excluded), yet the derived-view
test is case-insensitive, so the same unmatched entrant is classified as an
age-category entrant in the views. -/
theorem c10_inconsistent_age_test :
    ageKeywords.any (fun k => strContains "MS B u11" k) = false ∧
    filteredEvents "MS B u11" = ["MS B u11"] ∧
    filteredEvents "MS B U11" = [] ∧
    viewAgeTest "MS B u11" = true ∧
    runChecker demoScorer [⟨"zz qq", some "1", "B", "B", "B"⟩]
        [⟨"cc dd", "Dd", "Cc", none, "MS B u11", "e"⟩] =
      some [⟨"Cc Dd", "e", "None", "MS B u11", "N/A", "N/A", "N/A", "No Match", "OK"⟩] ∧
    ageNoMatch
        [⟨"Cc Dd", "e", "None", "MS B u11", "N/A", "N/A", "N/A", "No Match", "OK"⟩] =
      [⟨"Cc Dd", "e", "None", "MS B u11", "N/A", "N/A", "N/A", "No Match", "OK"⟩] ∧
    noMatchFiltered
        [⟨"Cc Dd", "e", "None", "MS B u11", "N/A", "N/A", "N/A", "No Match", "OK"⟩] = [] := by
  decide
